import Mathlib

/-!
Verification of the file-manager widget's core logic: a shallow embedding of
the file browser state machine (`RemoteFileBrowserField`), the upload
strategy (`RemoteUploadStrategy`), the remote-tags workflow, and the upload
ticket ledger (`RemoteFileUploadTicketViewModel`), together with theorems
settling the specification's claims about them.

Conventions of the embedding:
- JavaScript `Date` values are epoch milliseconds, modelled as `Int`.
- JavaScript numbers holding byte sizes or counts are modelled as `Nat`
  (they are non-negative in every code path); an intermediate value that
  can go negative (the remaining-slots computation) is modelled as `Int`,
  exactly where the source computes a possibly negative difference.
- Optional fields (`maxSize?: number`) are `Option`; the JavaScript
  truthiness tests the source performs on them (`if (filter.maxSize)`)
  are modelled by explicit helpers (`jsTruthyNat`, `jsTruthyStr`) so that
  `undefined`, `0` and the empty string are all falsy, as in JavaScript.
- `async` methods that can reject are modelled as total functions taking
  the outcome of each awaited external call as an `Except` parameter
  (`.error` is a rejected promise); a `try/catch` is a `match` on that
  parameter, and a `finally` is applied on every branch.
-/

/-- Lifecycle status of a tracked file: the source's string union
`'pending' | 'uploading' | 'completed' | 'failed'`. -/
inductive FileStatus where
  | pending
  | uploading
  | completed
  | failed
deriving DecidableEq, Repr

/-- A tracked file (interface `RemoteFile` of `RemoteFileBrowserModel.ts`).
The optional reference to the original binary payload (`file?: File`) is
not tracked here: no claim inspects it and it is only forwarded to the
upload strategy. -/
structure RemoteFile where
  id : String
  name : String
  size : Nat
  type : String
  lastModified : Int
  status : FileStatus
  url : Option String := none
deriving DecidableEq, Repr

/-- The browser state (interface `RemoteFileBrowserState`). -/
structure RemoteFileBrowserState where
  files : List RemoteFile
  isDragActive : Bool
  isUploading : Bool
  selectedFiles : List String
deriving DecidableEq, Repr

/-- A candidate file coming from the DOM (`File`): the fields the source
reads are name, size, type and lastModified. -/
structure BrowserFile where
  name : String
  size : Nat
  type : String
  lastModified : Int
deriving DecidableEq, Repr

/-- The file filter configuration (type `FileFilter`). -/
structure FileFilter where
  accept : Option String := none
  maxSize : Option Nat := none
  maxFiles : Option Nat := none
deriving DecidableEq, Repr

/-- Sort field union type. -/
inductive SortField where
  | name
  | size
  | type
  | lastModified
deriving DecidableEq, Repr

/-- Sort direction union type. -/
inductive SortDirection where
  | asc
  | desc
deriving DecidableEq, Repr

/-- Sorting options (interface `FileSortOptions`). -/
structure FileSortOptions where
  field : SortField
  direction : SortDirection
deriving DecidableEq, Repr

/-- Result of one upload (interface `UploadResult`). -/
structure UploadResult where
  success : Bool
  url : Option String := none
  error : Option String := none
deriving DecidableEq, Repr

/-- JavaScript truthiness of an optional number: `undefined` and `0` are
falsy, everything else is truthy. -/
def jsTruthyNat : Option Nat → Bool
  | none => false
  | some n => n != 0

/-- JavaScript truthiness of an optional string: `undefined` and the empty
string are falsy. -/
def jsTruthyStr : Option String → Bool
  | none => false
  | some s => s != ""

/-- JavaScript `String.prototype.toLowerCase`, modelled as the per-character
simple lowercase mapping. -/
def jsToLower (s : String) : String := String.mk (s.data.map Char.toLower)

/-- Drop leading whitespace characters. -/
def jsTrimLeft : List Char → List Char
  | [] => []
  | c :: cs => if c.isWhitespace then jsTrimLeft cs else c :: cs

/-- JavaScript `String.prototype.trim`: whitespace stripped from both
ends. -/
def jsTrim (s : String) : String :=
  String.mk ((jsTrimLeft (jsTrimLeft s.data).reverse).reverse)

/-- Helper for `jsIncludes`: does `needle` occur as a contiguous sublist of
the list? -/
def listContainsSub (needle : List Char) : List Char → Bool
  | [] => needle.isPrefixOf ([] : List Char)
  | c :: rest => needle.isPrefixOf (c :: rest) || listContainsSub needle rest

/-- JavaScript `hay.includes(needle)`: substring membership. -/
def jsIncludes (hay needle : String) : Bool := listContainsSub needle.data hay.data

namespace RemoteFileBrowserField

/-- Method `removeFile` of `RemoteFileBrowserField`: drops the file with the
given id from `files`. The source leaves `selectedFiles` untouched. -/
def removeFile (st : RemoteFileBrowserState) (fileId : String) : RemoteFileBrowserState :=
  { st with files := st.files.filter (fun file => file.id != fileId) }

/-- Method `selectFile`: the source looks up `indexOf(fileId)`, pushes the id
when it is `-1` and otherwise `splice`s the entry at that index away.
Removing the entry at the index returned by `indexOf` removes the first
occurrence, which is `List.erase`. -/
def selectFile (st : RemoteFileBrowserState) (fileId : String) : RemoteFileBrowserState :=
  { st with
    selectedFiles :=
      if st.selectedFiles.contains fileId then st.selectedFiles.erase fileId
      else st.selectedFiles ++ [fileId] }

/-- Method `selectAllFiles`: selection becomes the list of all file ids. -/
def selectAllFiles (st : RemoteFileBrowserState) : RemoteFileBrowserState :=
  { st with selectedFiles := st.files.map (fun file => file.id) }

/-- Method `clearSelection`. -/
def clearSelection (st : RemoteFileBrowserState) : RemoteFileBrowserState :=
  { st with selectedFiles := [] }

/-- Method `getSelectedFiles`. -/
def getSelectedFiles (st : RemoteFileBrowserState) : List RemoteFile :=
  st.files.filter (fun file => st.selectedFiles.contains file.id)

/-- Method `searchFiles`: a non-mutating query (it is a pure function of the
state here, as in the source, which only reads `this.state.files`). An
empty or whitespace-only term returns the whole list; otherwise the files
whose lowercased name or type contains the lowercased term are returned. -/
def searchFiles (st : RemoteFileBrowserState) (searchTerm : String) : List RemoteFile :=
  if jsTrim searchTerm = "" then st.files
  else
    let term := jsToLower searchTerm
    st.files.filter (fun file =>
      jsIncludes (jsToLower file.name) term || jsIncludes (jsToLower file.type) term)

/-- The value the sort comparator extracts from a file: `lastModified`
compares by epoch value (`getTime`), string fields compare lowercased,
`size` compares numerically. -/
inductive SortKey where
  | str (s : String)
  | num (n : Int)
deriving DecidableEq, Repr

/-- Extraction of the comparator operand, following the source's branches:
`lastModified` becomes a number via `getTime`; string-typed fields (name,
type) are lowercased; `size` is numeric. -/
def sortValue (file : RemoteFile) : SortField → SortKey
  | SortField.name => SortKey.str (jsToLower file.name)
  | SortField.size => SortKey.num (file.size : Int)
  | SortField.type => SortKey.str (jsToLower file.type)
  | SortField.lastModified => SortKey.num file.lastModified

/-- Strict comparison of two extracted sort values (the source's `<` on two
numbers or two strings; the heterogeneous case cannot arise for a fixed
field). -/
def keyLtb : SortKey → SortKey → Bool
  | SortKey.str a, SortKey.str b => decide (a < b)
  | SortKey.num a, SortKey.num b => decide (a < b)
  | _, _ => false

/-- The comparator passed to the sort in `sortFiles`. -/
def jsCompare (sortOptions : FileSortOptions) (a b : RemoteFile) : Int :=
  let aValue := sortValue a sortOptions.field
  let bValue := sortValue b sortOptions.field
  if keyLtb aValue bValue then (if sortOptions.direction = SortDirection.asc then -1 else 1)
  else if keyLtb bValue aValue then (if sortOptions.direction = SortDirection.asc then 1 else -1)
  else 0

/-- Method `sortFiles`: sorts a copy of `files` with the comparator and
stores it. JavaScript `Array.prototype.sort` is a stable comparison sort
(ES2019), modelled by `List.mergeSort` ordered by comparator value at most
zero. -/
def sortFiles (st : RemoteFileBrowserState) (sortOptions : FileSortOptions) :
    RemoteFileBrowserState :=
  { st with files := st.files.mergeSort (fun a b => decide (jsCompare sortOptions a b ≤ 0)) }

end RemoteFileBrowserField

/-- One atom of the tiny regular-expression dialect that `filterFiles`
builds: `acceptedType.replace('*', '.*')` produces patterns made of literal
characters, the any-character dot, and a star applied to the preceding
atom. -/
inductive RegexAtom where
  | anyChar
  | lit (c : Char)
deriving DecidableEq, Repr

/-- Parse the pattern string into atoms, each flagged with whether a star
follows it. -/
def parseRegexPattern : List Char → List (RegexAtom × Bool)
  | [] => []
  | [c] => [(if c = '.' then RegexAtom.anyChar else RegexAtom.lit c, false)]
  | c :: d :: rest =>
    let atom := if c = '.' then RegexAtom.anyChar else RegexAtom.lit c
    if d = '*' then (atom, true) :: parseRegexPattern rest
    else (atom, false) :: parseRegexPattern (d :: rest)

/-- Does a single atom match a character. -/
def atomMatches : RegexAtom → Char → Bool
  | RegexAtom.anyChar, _ => true
  | RegexAtom.lit c, d => c == d

/-- Does the pattern match a prefix-continuation of the character list in
the usual backtracking sense: an unstarred atom consumes one character, a
starred atom consumes zero or more. -/
def regexAccepts : List (RegexAtom × Bool) → List Char → Bool
  | [], _ => true
  | (_, false) :: _, [] => false
  | (atom, false) :: ps, c :: cs => atomMatches atom c && regexAccepts ps cs
  | (atom, true) :: ps, cs =>
    regexAccepts ps cs ||
      match cs with
      | [] => false
      | c :: cs2 => atomMatches atom c && regexAccepts ((atom, true) :: ps) cs2
termination_by ps cs => (cs.length, ps.length)

/-- JavaScript `new RegExp(pattern).test(s)`: an unanchored search, true
when the pattern matches starting at some position of `s`. -/
def regexTest (ps : List (RegexAtom × Bool)) : List Char → Bool
  | [] => regexAccepts ps []
  | c :: cs => regexAccepts ps (c :: cs) || regexTest ps cs

/-- JavaScript `pattern.replace('*', '.*')` with a string first argument:
only the first occurrence is replaced. -/
def jsReplaceFirstStar : List Char → List Char
  | [] => []
  | c :: cs => if c = '*' then '.' :: '*' :: cs else c :: jsReplaceFirstStar cs

namespace RemoteFileBrowserField

/-- One accepted-type entry of the filter, applied to a candidate file: a
leading dot is a case-insensitive extension suffix test on the name, an
entry containing a star becomes a regular-expression test on the MIME
type, and anything else is an exact MIME match. -/
def matchesAcceptedType (file : BrowserFile) (acceptedType : String) : Bool :=
  if acceptedType.startsWith "." then
    (jsToLower file.name).endsWith (jsToLower acceptedType)
  else if acceptedType.data.contains '*' then
    regexTest (parseRegexPattern (jsReplaceFirstStar acceptedType.data)) file.type.data
  else file.type == acceptedType

/-- First stage of `filterFiles`: the accept-pattern filter, applied only
when the `accept` string is truthy (present and non-empty). -/
def acceptStage (fileFilter : FileFilter) (files : List BrowserFile) : List BrowserFile :=
  if jsTruthyStr fileFilter.accept then
    let acceptedTypes := ((fileFilter.accept.getD "").splitOn ",").map String.trim
    files.filter (fun file => acceptedTypes.any (fun acceptedType => matchesAcceptedType file acceptedType))
  else files

/-- Second stage of `filterFiles`: the max-size filter, applied only when
`maxSize` is truthy (present and non-zero). -/
def sizeStage (fileFilter : FileFilter) (files : List BrowserFile) : List BrowserFile :=
  if jsTruthyNat fileFilter.maxSize then
    files.filter (fun file => file.size ≤ fileFilter.maxSize.getD 0)
  else files

/-- Third stage of `filterFiles`: when `maxFiles` is truthy, keep only the
first `maxFiles - state.files.length` candidates, clamped at zero
(`slice(0, Math.max(0, remainingSlots))`). -/
def countStage (fileFilter : FileFilter) (stateFilesLength : Nat) (files : List BrowserFile) :
    List BrowserFile :=
  if jsTruthyNat fileFilter.maxFiles then
    let remainingSlots : Int := (fileFilter.maxFiles.getD 0 : Int) - (stateFilesLength : Int)
    files.take (max 0 remainingSlots).toNat
  else files

/-- Private method `filterFiles` of `RemoteFileBrowserField`: the source
reassigns `filtered` through the three guarded stages in this order. -/
def filterFiles (fileFilter : FileFilter) (stateFilesLength : Nat) (files : List BrowserFile) :
    List BrowserFile :=
  countStage fileFilter stateFilesLength (sizeStage fileFilter (acceptStage fileFilter files))

end RemoteFileBrowserField

/-- Outcome of `validateFile` (an object with `valid` and optional
`error`). -/
structure ValidationResult where
  valid : Bool
  error : Option String := none
deriving DecidableEq, Repr

namespace RemoteUploadStrategy

/-- The configurable fields of `RemoteUploadStrategy` (default max size
100MB, default empty allow-list). -/
structure StrategyConfig where
  maxFileSize : Nat := 100 * 1024 * 1024
  allowedTypes : List String := []
deriving DecidableEq, Repr

/-- The fixed denylist of file-name characters, the character class of the
source's `invalidChars` regular expression. -/
def invalidNameChars : List Char := ['<', '>', ':', '"', '/', '\\', '|', '?', '*']

/-- Method `validateFile`: size ceiling, allow-list (only when non-empty),
255-character name limit, then the character denylist. -/
def validateFile (strategy : StrategyConfig) (file : BrowserFile) : ValidationResult :=
  if file.size > strategy.maxFileSize then
    { valid := false, error := some "File size exceeds maximum allowed size" }
  else if strategy.allowedTypes.length > 0 && !(strategy.allowedTypes.contains file.type) then
    { valid := false, error := some "File type is not allowed" }
  else if file.name.length > 255 then
    { valid := false, error := some "File name is too long (maximum 255 characters)" }
  else if file.name.data.any (fun c => invalidNameChars.contains c) then
    { valid := false, error := some "File name contains invalid characters" }
  else { valid := true }

/-- Method `uploadFile`: a validation failure is returned as a failed
result; the storage call is awaited inside a try/catch whose catch also
returns a failed result. The storage backend is an oracle parameter
`storageUpload`; a rejected promise is `Except.error`. -/
def uploadFile (strategy : StrategyConfig)
    (storageUpload : BrowserFile → Except String UploadResult) (file : BrowserFile) :
    UploadResult :=
  let validation := validateFile strategy file
  if !validation.valid then { success := false, error := validation.error }
  else
    match storageUpload file with
    | Except.ok result => result
    | Except.error msg => { success := false, error := some msg }

/-- Fuel-indexed worker for `chunkArray`. The source's loop advances its
index by `size` per iteration; with a positive `size` it runs at most
`array.length` iterations, so the array length is sufficient fuel. -/
def chunkAux : Nat → Nat → List α → List (List α)
  | _, _, [] => []
  | 0, _, _ :: _ => []
  | fuel + 1, size, a :: l => (a :: l).take size :: chunkAux fuel size ((a :: l).drop size)

/-- Private method `chunkArray`: consecutive windows of `size` elements. -/
def chunkArray (array : List α) (size : Nat) : List (List α) :=
  chunkAux array.length size array

/-- Method `uploadFiles` of `RemoteUploadStrategy`: partitions the input
into windows of the fixed concurrency limit 3 and accumulates the window
results in order. Within a window the uploads are issued concurrently and
awaited together (`Promise.all`), which contributes the window's results
in input order, as `List.map` does. -/
def uploadFiles (strategy : StrategyConfig)
    (storageUpload : BrowserFile → Except String UploadResult) (files : List BrowserFile) :
    List UploadResult :=
  let concurrencyLimit := 3
  let chunks := chunkArray files concurrencyLimit
  chunks.foldl (fun results chunk => results ++ chunk.map (uploadFile strategy storageUpload)) []

end RemoteUploadStrategy

namespace RemoteFileBrowserField

/-- Private method `updateFiles`: builds a Map keyed by id from
`updatedFiles` (later entries overwrite earlier ones) and replaces each
state file by its entry when one exists. The Map lookup is a search for
the last occurrence of the id. -/
def updateFiles (stateFiles updatedFiles : List RemoteFile) : List RemoteFile :=
  stateFiles.map (fun file => ((updatedFiles.reverse.find? (fun u => u.id == file.id)).getD file))

/-- The first half of the state machine's `uploadFiles`: set the uploading
flag and rewrite the batch's files to status `uploading`. -/
def uploadFilesMark (st : RemoteFileBrowserState) (files : List RemoteFile) :
    RemoteFileBrowserState :=
  let st1 := { st with isUploading := true }
  { st1 with
    files := updateFiles st1.files (files.map (fun file => { file with status := FileStatus.uploading })) }

/-- Private method `uploadFiles` of `RemoteFileBrowserField`. The
strategy's awaited result is the `strategyOutcome` parameter. On success
each batch file is rewritten with status `completed` or `failed` and the
result's url, by position (`results[index]`); the `finally` block clears
`isUploading` on both the success path and the throwing path, in which
case the exception is re-raised to the caller (the second component). -/
def uploadFiles (st : RemoteFileBrowserState) (files : List RemoteFile)
    (strategyOutcome : Except String (List UploadResult)) :
    RemoteFileBrowserState × Option String :=
  let stMid := uploadFilesMark st files
  match strategyOutcome with
  | Except.ok results =>
    let updatedFiles := List.zipWith
      (fun file result =>
        { file with
          status := if result.success then FileStatus.completed else FileStatus.failed,
          url := result.url }) files results
    let stDone := { stMid with files := updateFiles stMid.files updatedFiles }
    ({ stDone with isUploading := false }, none)
  | Except.error err => ({ stMid with isUploading := false }, some err)

end RemoteFileBrowserField


namespace RemoteFileBrowserField

/-- The mutating browser operations a caller can issue against the file
list and selection. The `addFiles` operation carries the batch after the
filter stage with its generated ids (the source converts the filtered
candidates to pending files and appends them; the subsequent upload only
rewrites statuses and urls of those same ids, so the id sets below are
exactly those of the source after any `addFiles`). -/
inductive BrowserOp where
  | addFiles (newFiles : List RemoteFile)
  | removeFile (fileId : String)
  | selectFile (fileId : String)
  | selectAllFiles
  | clearSelection
deriving Repr

/-- Apply one operation to the state. -/
def applyOp (st : RemoteFileBrowserState) : BrowserOp → RemoteFileBrowserState
  | BrowserOp.addFiles newFiles => { st with files := st.files ++ newFiles }
  | BrowserOp.removeFile fileId => removeFile st fileId
  | BrowserOp.selectFile fileId => selectFile st fileId
  | BrowserOp.selectAllFiles => selectAllFiles st
  | BrowserOp.clearSelection => clearSelection st

/-- The state the constructor builds. -/
def initialState : RemoteFileBrowserState :=
  { files := [], isDragActive := false, isUploading := false, selectedFiles := [] }

/-- Run a sequence of operations from a state. -/
def runOps (st : RemoteFileBrowserState) (ops : List BrowserOp) : RemoteFileBrowserState :=
  ops.foldl applyOp st

/-- The specification's data-model invariant: every selected id is the id
of some file in the list. -/
def selectionInvariant (st : RemoteFileBrowserState) : Prop :=
  ∀ fileId ∈ st.selectedFiles, ∃ file ∈ st.files, file.id = fileId

instance (st : RemoteFileBrowserState) : Decidable (selectionInvariant st) := by
  unfold selectionInvariant
  exact inferInstance

/-- States reachable by operation sequences restricted to the safe usage
pattern: `selectFile` is only invoked with the id of a file present at
that moment, and `removeFile` only with an id that is not currently
selected. -/
inductive SafeReachable : RemoteFileBrowserState → Prop where
  | init : SafeReachable initialState
  | addFiles (st : RemoteFileBrowserState) (newFiles : List RemoteFile) :
      SafeReachable st → SafeReachable (applyOp st (BrowserOp.addFiles newFiles))
  | selectFile (st : RemoteFileBrowserState) (fileId : String) :
      SafeReachable st → (∃ file ∈ st.files, file.id = fileId) →
      SafeReachable (applyOp st (BrowserOp.selectFile fileId))
  | selectAllFiles (st : RemoteFileBrowserState) :
      SafeReachable st → SafeReachable (applyOp st BrowserOp.selectAllFiles)
  | clearSelection (st : RemoteFileBrowserState) :
      SafeReachable st → SafeReachable (applyOp st BrowserOp.clearSelection)
  | removeFile (st : RemoteFileBrowserState) (fileId : String) :
      SafeReachable st → fileId ∉ st.selectedFiles →
      SafeReachable (applyOp st (BrowserOp.removeFile fileId))

end RemoteFileBrowserField

/-- The custom tag payload of an upload tag
(`customTags: {folder, allowedTypes?, maxFileSize?, maxFiles?}`). -/
structure UploadTagCustomTags where
  folder : Option String := none
  allowedTypes : Option (List String) := none
  maxFileSize : Option Nat := none
  maxFiles : Option Nat := none
deriving DecidableEq, Repr

/-- A server-defined upload tag (interface `UploadTag`). -/
structure UploadTag where
  id : String
  name : String
  customTags : UploadTagCustomTags
deriving DecidableEq, Repr

/-- A listed blob (interface `BlobItem`). -/
structure BlobItem where
  name : String
  size : Nat
  lastModified : Int
  contentType : String
  url : String
deriving DecidableEq, Repr

namespace RemoteTagsService

/-- Method `extractFolderPath`: the source evaluates
`uploadTag.customTags.folder || ''`, so a missing or empty folder gives
the empty string. -/
def extractFolderPath (uploadTag : UploadTag) : String :=
  match uploadTag.customTags.folder with
  | some folder => if folder != "" then folder else ""
  | none => ""

/-- Method `getFileFilterFromUploadTag`: `allowedTypes?.join(',')` and the
two numeric limits, each possibly absent. -/
def getFileFilterFromUploadTag (uploadTag : UploadTag) : FileFilter :=
  { accept := uploadTag.customTags.allowedTypes.map (fun types => String.intercalate "," types),
    maxSize := uploadTag.customTags.maxFileSize,
    maxFiles := uploadTag.customTags.maxFiles }

end RemoteTagsService

/-- JavaScript `s.replace(pattern, '')` for a string pattern: removes the
first occurrence of `pattern`, leaving the rest unchanged. -/
def stripFirstOccurrence (pattern : List Char) : List Char → List Char
  | [] => []
  | c :: cs =>
    if pattern.isPrefixOf (c :: cs) then (c :: cs).drop pattern.length
    else c :: stripFirstOccurrence pattern cs

namespace RemoteFileBrowserField

/-- Conversion of one listed blob into a tracked file inside
`loadFilesFromRemoteFolder`: the folder prefix is stripped from the name,
the status is forced to `completed` and the blob url kept. The generated
id is supplied by the caller. -/
def blobItemToRemoteFile (folderPath : String) (fileId : String) (item : BlobItem) : RemoteFile :=
  { id := fileId,
    name := String.mk (stripFirstOccurrence (folderPath ++ "/").data item.name.data),
    size := item.size,
    type := item.contentType,
    lastModified := item.lastModified,
    status := FileStatus.completed,
    url := some item.url }

/-- Method `loadFilesFromRemoteFolder`: lists the folder through the
storage service (outcome supplied as `listOutcome`), replaces the whole
file list on success, and re-raises a listing failure to its caller. Ids
are generated per item (`genId` supplies the source's random ids by
position). -/
def loadFilesFromRemoteFolder (st : RemoteFileBrowserState) (genId : Nat → String)
    (folderPath : String) (listOutcome : Except String (List BlobItem)) :
    Except String RemoteFileBrowserState :=
  match listOutcome with
  | Except.ok blobItems =>
    let remoteFiles := blobItems.enum.map
      (fun p => blobItemToRemoteFile folderPath (genId p.1) p.2)
    Except.ok { st with files := remoteFiles }
  | Except.error err => Except.error err

/-- Everything `initializeFromRemoteTags` leaves behind: its boolean return
value, the browser state, the merged file filter and the remembered upload
tag. The function is total: every failure path of the source returns
`false` instead of raising. -/
structure InitializeResult where
  returnValue : Bool
  state : RemoteFileBrowserState
  fileFilter : FileFilter
  currentUploadTag : Option UploadTag
deriving Repr

/-- Method `initializeFromRemoteTags`. Oracles: `tagsServiceConfigured`
tells whether a tags service was passed to the constructor;
`getUploadTagOutcome` is the awaited `tagsService.getUploadTag()` call
(`Except.error` for a rejection); `listOutcome` is the awaited storage
listing. The missing-service check happens before the try block; the
`finally` clears `isUploading` on every path inside it, and the `catch`
turns any rejection into `false`. The spread merging the tag's filter into
the local one overwrites all three fields because the object literal built
by `getFileFilterFromUploadTag` always carries all three keys. -/
def initializeFromRemoteTags (st : RemoteFileBrowserState) (fileFilter : FileFilter)
    (genId : Nat → String) (tagsServiceConfigured : Bool)
    (getUploadTagOutcome : Except String (Option UploadTag))
    (listOutcome : Except String (List BlobItem)) : InitializeResult :=
  if !tagsServiceConfigured then
    { returnValue := false, state := st, fileFilter := fileFilter, currentUploadTag := none }
  else
    let st1 := { st with isUploading := true }
    match getUploadTagOutcome with
    | Except.error _ =>
      { returnValue := false, state := { st1 with isUploading := false },
        fileFilter := fileFilter, currentUploadTag := none }
    | Except.ok none =>
      { returnValue := false, state := { st1 with isUploading := false },
        fileFilter := fileFilter, currentUploadTag := none }
    | Except.ok (some uploadTag) =>
      let folderPath := RemoteTagsService.extractFolderPath uploadTag
      if folderPath == "" then
        { returnValue := false, state := { st1 with isUploading := false },
          fileFilter := fileFilter, currentUploadTag := some uploadTag }
      else
        let mergedFilter := RemoteTagsService.getFileFilterFromUploadTag uploadTag
        match loadFilesFromRemoteFolder st1 genId folderPath listOutcome with
        | Except.ok st2 =>
          { returnValue := true, state := { st2 with isUploading := false },
            fileFilter := mergedFilter, currentUploadTag := some uploadTag }
        | Except.error _ =>
          { returnValue := false, state := { st1 with isUploading := false },
            fileFilter := mergedFilter, currentUploadTag := some uploadTag }

end RemoteFileBrowserField

/-- Status of an upload ticket (`'active' | 'expired' | 'used'`). -/
inductive TicketStatus where
  | active
  | expired
  | used
deriving DecidableEq, Repr

/-- A short-lived signed upload ticket (interface
`RemoteFileUploadTicket`); `expiryDate` is epoch milliseconds. -/
structure RemoteFileUploadTicket where
  id : String
  fileName : String
  fileSize : Nat
  uploadUrl : String
  expiryDate : Int
  status : TicketStatus
deriving DecidableEq, Repr

namespace RemoteFileUploadTicketViewModel

/-- The ledger: the view model's `Map<string, RemoteFileUploadTicket>`,
modelled as an insertion-ordered association list (a JavaScript Map
iterates in insertion order and holds at most one entry per key). -/
abbrev TicketLedger := List (String × RemoteFileUploadTicket)

/-- JavaScript `map.get(id)`: the entry at the key, if any. -/
def mapGet (tickets : TicketLedger) (ticketId : String) : Option RemoteFileUploadTicket :=
  (tickets.find? (fun p => p.1 == ticketId)).map Prod.snd

/-- JavaScript `map.set(id, t)`: replaces the entry at an existing key in
place, otherwise appends a new entry. -/
def mapSet (tickets : TicketLedger) (ticketId : String) (ticket : RemoteFileUploadTicket) :
    TicketLedger :=
  if tickets.any (fun p => p.1 == ticketId) then
    tickets.map (fun p => if p.1 == ticketId then (p.1, ticket) else p)
  else tickets ++ [(ticketId, ticket)]

/-- Private method `isTicketExpired`: `new Date() > ticket.expiryDate`,
with the current time supplied as `now`. -/
def isTicketExpired (now : Int) (ticket : RemoteFileUploadTicket) : Bool :=
  now > ticket.expiryDate

/-- Method `getAllTickets`: the Map's values in insertion order. -/
def getAllTickets (tickets : TicketLedger) : List RemoteFileUploadTicket :=
  tickets.map Prod.snd

/-- Method `getActiveTickets`: stored status `active` and a live expiry
check. -/
def getActiveTickets (now : Int) (tickets : TicketLedger) : List RemoteFileUploadTicket :=
  (getAllTickets tickets).filter
    (fun ticket => ticket.status == TicketStatus.active && !isTicketExpired now ticket)

/-- Method `getExpiredTickets`. -/
def getExpiredTickets (now : Int) (tickets : TicketLedger) : List RemoteFileUploadTicket :=
  (getAllTickets tickets).filter (fun ticket => isTicketExpired now ticket)

/-- Method `cleanupExpiredTickets`: first collect the ids of all expired
entries, then rewrite each one's stored status to `expired` via get/set. -/
def cleanupExpiredTickets (now : Int) (tickets : TicketLedger) : TicketLedger :=
  let expiredTicketIds := (tickets.filter (fun p => isTicketExpired now p.2)).map Prod.fst
  expiredTicketIds.foldl
    (fun acc ticketId =>
      match mapGet acc ticketId with
      | some ticket => mapSet acc ticketId { ticket with status := TicketStatus.expired }
      | none => acc)
    tickets

end RemoteFileUploadTicketViewModel

/-- C2: for every file list, `searchFiles` on a whitespace-only (or empty)
term returns the full file list unchanged, and on a non-trivial term that
is a case-insensitive substring of no file's name and no file's type it
returns the empty list. The embedding makes `searchFiles` a pure function
of the state, as the source method is: it never mutates the state. -/
theorem C2_searchFiles (st : RemoteFileBrowserState) (s t : String)
    (hs : jsTrim s = "") (ht : jsTrim t ≠ "")
    (hmatch : ∀ file ∈ st.files,
      jsIncludes (jsToLower file.name) (jsToLower t) = false ∧
      jsIncludes (jsToLower file.type) (jsToLower t) = false) :
    RemoteFileBrowserField.searchFiles st s = st.files ∧
    RemoteFileBrowserField.searchFiles st t = [] := by
  constructor
  · simp [RemoteFileBrowserField.searchFiles, hs]
  · simp only [RemoteFileBrowserField.searchFiles, if_neg ht]
    rw [List.filter_eq_nil_iff]
    intro file hf
    rcases hmatch file hf with ⟨h1, h2⟩
    simp [h1, h2]

/-- Concrete state for the `searchFiles` witness. -/
def c2State : RemoteFileBrowserState :=
  { files := [{ id := "f1", name := "a.txt", size := 3, type := "text/plain",
                lastModified := 0, status := FileStatus.pending }],
    isDragActive := false, isUploading := false, selectedFiles := [] }

theorem C2_searchFiles_witness :
    RemoteFileBrowserField.searchFiles c2State "  " = c2State.files ∧
    RemoteFileBrowserField.searchFiles c2State "zq" = [] :=
  C2_searchFiles c2State "  " "zq" (by decide) (by decide) (by decide)

/-- C3: when a positive max total count is configured and every candidate
passes the pattern and size stages, `filterFiles` keeps exactly the first
`maxFiles - currentCount` candidates, clamped at zero, and raises no error
for the dropped ones (it is a total function). The witness instantiates
the spec's example: `maxFiles = 2`, one existing file, five candidates,
exactly the first one kept. -/
theorem C3_filterFiles (fileFilter : FileFilter) (stateFilesLength maxFiles : Nat)
    (files : List BrowserFile)
    (hmax : fileFilter.maxFiles = some maxFiles) (hpos : 0 < maxFiles)
    (haccept : RemoteFileBrowserField.acceptStage fileFilter files = files)
    (hsize : RemoteFileBrowserField.sizeStage fileFilter files = files) :
    RemoteFileBrowserField.filterFiles fileFilter stateFilesLength files
      = files.take (max 0 ((maxFiles : Int) - (stateFilesLength : Int))).toNat := by
  unfold RemoteFileBrowserField.filterFiles
  rw [haccept, hsize]
  unfold RemoteFileBrowserField.countStage
  have htr : jsTruthyNat fileFilter.maxFiles = true := by
    rw [hmax]
    simp [jsTruthyNat]
    omega
  rw [if_pos htr, hmax]
  simp

/-- Five candidate files for the C3 witness. -/
def c3Files : List BrowserFile :=
  [{ name := "f1", size := 1, type := "text/plain", lastModified := 0 },
   { name := "f2", size := 1, type := "text/plain", lastModified := 0 },
   { name := "f3", size := 1, type := "text/plain", lastModified := 0 },
   { name := "f4", size := 1, type := "text/plain", lastModified := 0 },
   { name := "f5", size := 1, type := "text/plain", lastModified := 0 }]

theorem C3_filterFiles_witness :
    RemoteFileBrowserField.acceptStage { maxFiles := some 2 } c3Files = c3Files ∧
    RemoteFileBrowserField.filterFiles { maxFiles := some 2 } 1 c3Files
      = c3Files.take (max 0 ((2 : Int) - (1 : Int))).toNat :=
  ⟨rfl, C3_filterFiles { maxFiles := some 2 } 1 2 c3Files rfl (by decide) rfl rfl⟩

/-- C10: a filter whose `maxFiles` is `0` behaves exactly as one with the
limit absent (no count cap at all, rather than accepting zero files), and
a filter whose `maxSize` is `0` applies no size check, because the source
guards each stage with a JavaScript truthiness test and `0` is falsy. -/
theorem C10_filterFiles_zero_limits (fileFilter : FileFilter) (stateFilesLength : Nat)
    (files : List BrowserFile) :
    RemoteFileBrowserField.filterFiles { fileFilter with maxFiles := some 0 } stateFilesLength files
      = RemoteFileBrowserField.filterFiles { fileFilter with maxFiles := none } stateFilesLength files
    ∧ RemoteFileBrowserField.filterFiles { fileFilter with maxSize := some 0 } stateFilesLength files
      = RemoteFileBrowserField.filterFiles { fileFilter with maxSize := none } stateFilesLength files := by
  constructor <;>
    simp [RemoteFileBrowserField.filterFiles, RemoteFileBrowserField.countStage,
      RemoteFileBrowserField.sizeStage, RemoteFileBrowserField.acceptStage,
      jsTruthyNat, jsTruthyStr]

/-- C8: `initializeFromRemoteTags` never throws: it is a total function of
the outcomes of its awaited calls, and it returns `false` when no tags
service is configured, when the server reports no upload tag, when the
fetch of the upload tag rejects, when the upload tag carries no folder
path, and when listing the remote folder rejects. -/
theorem C8_initializeFromRemoteTags (st : RemoteFileBrowserState) (fileFilter : FileFilter)
    (genId : Nat → String) (gerr lerr : String) (tag : UploadTag)
    (getOutcome : Except String (Option UploadTag))
    (listOutcome : Except String (List BlobItem))
    (hfolder : RemoteTagsService.extractFolderPath tag = "") :
    (RemoteFileBrowserField.initializeFromRemoteTags st fileFilter genId false
        getOutcome listOutcome).returnValue = false
    ∧ (RemoteFileBrowserField.initializeFromRemoteTags st fileFilter genId true
        (Except.ok none) listOutcome).returnValue = false
    ∧ (RemoteFileBrowserField.initializeFromRemoteTags st fileFilter genId true
        (Except.error gerr) listOutcome).returnValue = false
    ∧ (RemoteFileBrowserField.initializeFromRemoteTags st fileFilter genId true
        (Except.ok (some tag)) listOutcome).returnValue = false
    ∧ (∀ tag2 : UploadTag,
        (RemoteFileBrowserField.initializeFromRemoteTags st fileFilter genId true
          (Except.ok (some tag2)) (Except.error lerr)).returnValue = false) := by
  refine ⟨rfl, rfl, rfl, ?_, ?_⟩
  · simp [RemoteFileBrowserField.initializeFromRemoteTags, hfolder]
  · intro tag2
    by_cases h : RemoteTagsService.extractFolderPath tag2 = ""
    · simp [RemoteFileBrowserField.initializeFromRemoteTags, h]
    · simp [RemoteFileBrowserField.initializeFromRemoteTags, h,
        RemoteFileBrowserField.loadFilesFromRemoteFolder]

/-- An upload tag with no folder path, for the C8 witness. -/
def c8Tag : UploadTag := { id := "t1", name := "upload", customTags := {} }

theorem C8_initializeFromRemoteTags_witness :
    (RemoteFileBrowserField.initializeFromRemoteTags RemoteFileBrowserField.initialState {}
      (fun _ => "x") true (Except.ok (some c8Tag)) (Except.ok [])).returnValue = false :=
  (C8_initializeFromRemoteTags RemoteFileBrowserField.initialState {} (fun _ => "x")
    "g" "l" c8Tag (Except.ok (some c8Tag)) (Except.ok []) rfl).2.2.2.1

/-- C4: toggling the same id twice with `selectFile` returns to the
original selection set. The selection list of any duplicate-free selection
set comes back as a permutation (the same set of ids; after a
remove-then-re-add the id moves to the end of the list), and the file list
is untouched. -/
theorem C4_selectFile_toggle (st : RemoteFileBrowserState) (fileId : String)
    (hnd : st.selectedFiles.Nodup) :
    ((RemoteFileBrowserField.selectFile (RemoteFileBrowserField.selectFile st fileId)
        fileId).selectedFiles).Perm st.selectedFiles ∧
    (RemoteFileBrowserField.selectFile (RemoteFileBrowserField.selectFile st fileId)
        fileId).files = st.files := by
  refine ⟨?_, rfl⟩
  by_cases hmem : fileId ∈ st.selectedFiles
  · have hnotmem : fileId ∉ st.selectedFiles.erase fileId := by
      intro h
      exact absurd (hnd.mem_erase_iff.mp h).1 (by simp)
    have hc : st.selectedFiles.contains fileId = true := by
      simpa using hmem
    have hc2 : ¬((st.selectedFiles.erase fileId).contains fileId = true) := by
      simpa using hnotmem
    simp only [RemoteFileBrowserField.selectFile]
    rw [if_pos hc, if_neg hc2]
    exact (List.perm_append_singleton fileId _).trans (List.perm_cons_erase hmem).symm
  · have hc : ¬(st.selectedFiles.contains fileId = true) := by
      simpa using hmem
    have hc2 : (st.selectedFiles ++ [fileId]).contains fileId = true := by
      simp
    simp only [RemoteFileBrowserField.selectFile]
    rw [if_neg hc, if_pos hc2, List.erase_append_right _ hmem]
    simp

/-- Concrete state for the C4 witness: a selection of two ids. -/
def c4State : RemoteFileBrowserState :=
  { files := [], isDragActive := false, isUploading := false,
    selectedFiles := ["a", "b"] }

theorem C4_selectFile_toggle_witness :
    ((RemoteFileBrowserField.selectFile (RemoteFileBrowserField.selectFile c4State "a")
        "a").selectedFiles).Perm c4State.selectedFiles :=
  (C4_selectFile_toggle c4State "a" (by decide)).1

/-- A single pending file used by the C1 refutation and witness. -/
def c1File : RemoteFile :=
  { id := "a", name := "a.txt", size := 1, type := "text/plain",
    lastModified := 0, status := FileStatus.pending }

/-- C1 is false on the code as stated: after adding a file, selecting it
and then removing it, the removed file's id is still in `selectedFiles`
although no file in `files` carries it — `removeFile` filters `files` but
never prunes `selectedFiles`. -/
theorem C1_counterexample :
    ¬ RemoteFileBrowserField.selectionInvariant
        (RemoteFileBrowserField.runOps RemoteFileBrowserField.initialState
          [RemoteFileBrowserField.BrowserOp.addFiles [c1File],
           RemoteFileBrowserField.BrowserOp.selectFile "a",
           RemoteFileBrowserField.BrowserOp.removeFile "a"]) := by
  decide

/-- C1 amended: the invariant that every selected id names a file in
`files` holds for every state reached by operation sequences in which
`selectFile` is only called with the id of a file present at that moment
and `removeFile` only with an id that is not currently selected; without
those restrictions the invariant fails (see the counterexample: the
source's `removeFile` leaves the removed id selected). -/
theorem C1_amended_selectionInvariant (st : RemoteFileBrowserState)
    (h : RemoteFileBrowserField.SafeReachable st) :
    RemoteFileBrowserField.selectionInvariant st := by
  induction h with
  | init =>
    intro fileId hmem
    exact absurd hmem (List.not_mem_nil fileId)
  | addFiles st newFiles hr ih =>
    intro fileId hmem
    rcases ih fileId hmem with ⟨file, hf, hid⟩
    exact ⟨file, List.mem_append_left _ hf, hid⟩
  | selectFile st fileId hr hex ih =>
    intro id2 hmem
    have hmem2 : id2 ∈ (if st.selectedFiles.contains fileId then
        st.selectedFiles.erase fileId else st.selectedFiles ++ [fileId]) := hmem
    by_cases hc : st.selectedFiles.contains fileId
    · rw [if_pos hc] at hmem2
      exact ih id2 (List.mem_of_mem_erase hmem2)
    · rw [if_neg hc] at hmem2
      rcases List.mem_append.mp hmem2 with hin | hin
      · exact ih id2 hin
      · rcases hex with ⟨file, hf, hid⟩
        have heq : id2 = fileId := by simpa using hin
        exact ⟨file, hf, by rw [hid, heq]⟩
  | selectAllFiles st hr ih =>
    intro id2 hmem
    rcases List.mem_map.mp hmem with ⟨file, hf, hid⟩
    exact ⟨file, hf, hid⟩
  | clearSelection st hr ih =>
    intro id2 hmem
    exact absurd hmem (List.not_mem_nil id2)
  | removeFile st fileId hr hnotsel ih =>
    intro id2 hmem
    rcases ih id2 hmem with ⟨file, hf, hid⟩
    refine ⟨file, List.mem_filter.mpr ⟨hf, ?_⟩, hid⟩
    have hne : id2 ≠ fileId := fun he => hnotsel (he ▸ hmem)
    have hne2 : file.id ≠ fileId := by
      rw [hid]
      exact hne
    simpa [bne_iff_ne] using hne2

theorem C1_amended_selectionInvariant_witness :
    RemoteFileBrowserField.selectionInvariant
      (RemoteFileBrowserField.applyOp RemoteFileBrowserField.initialState
        (RemoteFileBrowserField.BrowserOp.addFiles [c1File])) :=
  C1_amended_selectionInvariant _
    (RemoteFileBrowserField.SafeReachable.addFiles RemoteFileBrowserField.initialState [c1File]
      RemoteFileBrowserField.SafeReachable.init)

/-- Unfolding step of `chunkAux` on a non-empty list. -/
theorem chunkAux_cons (fuel size : Nat) (l : List α) (h : l ≠ []) :
    RemoteUploadStrategy.chunkAux (fuel + 1) size l
      = l.take size :: RemoteUploadStrategy.chunkAux fuel size (l.drop size) := by
  cases l with
  | nil => exact absurd rfl h
  | cons a t => rfl

/-- With positive window size and enough fuel, the chunks concatenate back
to the original list. -/
theorem chunkAux_flatten (size : Nat) (hs : 0 < size) :
    ∀ (fuel : Nat) (l : List α), l.length ≤ fuel →
      (RemoteUploadStrategy.chunkAux fuel size l).flatten = l := by
  intro fuel
  induction fuel with
  | zero =>
    intro l hl
    have h0 : l = [] := List.eq_nil_of_length_eq_zero (Nat.le_zero.mp hl)
    subst h0
    rfl
  | succ n ih =>
    intro l hl
    cases l with
    | nil => rfl
    | cons a t =>
      have hl2 : t.length + 1 ≤ n + 1 := by
        simpa using hl
      have hd : ((a :: t).drop size).length ≤ n := by
        simp only [List.length_drop, List.length_cons]
        omega
      rw [chunkAux_cons n size (a :: t) (by simp), List.flatten_cons, ih _ hd,
        List.take_append_drop]

/-- The windows of `chunkArray` concatenate back to the input. -/
theorem chunkArray_flatten (size : Nat) (hs : 0 < size) (l : List α) :
    (RemoteUploadStrategy.chunkArray l size).flatten = l :=
  chunkAux_flatten size hs l.length l (Nat.le_refl _)

/-- Accumulating window results with append is mapping over the
concatenated windows. -/
theorem foldl_append_map (g : α → β) :
    ∀ (chunks : List (List α)) (acc : List β),
      chunks.foldl (fun results chunk => results ++ chunk.map g) acc
        = acc ++ (chunks.flatten).map g := by
  intro chunks
  induction chunks with
  | nil =>
    intro acc
    simp
  | cons c cs ih =>
    intro acc
    simp only [List.foldl_cons, ih, List.flatten_cons, List.map_append, List.append_assoc]

/-- C6: on a batch of 7 files with the fixed concurrency window 3, the
strategy's `uploadFiles` partitions the input into consecutive windows of
sizes 3, 3, 1 whose concatenation is the input batch, and its result list
is one `uploadFile` result per input file in input order (each window is
issued with `Promise.all`, which keeps the window's order; the windows are
awaited one after another). -/
theorem C6_uploadFiles_windows (strategy : RemoteUploadStrategy.StrategyConfig)
    (storageUpload : BrowserFile → Except String UploadResult)
    (files : List BrowserFile) (h7 : files.length = 7) :
    (RemoteUploadStrategy.chunkArray files 3).map List.length = [3, 3, 1]
    ∧ (RemoteUploadStrategy.chunkArray files 3).flatten = files
    ∧ RemoteUploadStrategy.uploadFiles strategy storageUpload files
        = files.map (RemoteUploadStrategy.uploadFile strategy storageUpload) := by
  refine ⟨?_, chunkArray_flatten 3 (by decide) files, ?_⟩
  · have h1 : files ≠ [] := by
      intro h
      rw [h] at h7
      simp at h7
    have h2 : files.drop 3 ≠ [] := by
      intro h
      have := congrArg List.length h
      simp [h7] at this
    have h3 : (files.drop 3).drop 3 ≠ [] := by
      intro h
      have := congrArg List.length h
      simp [h7] at this
    have h4 : ((files.drop 3).drop 3).drop 3 = [] := by
      apply List.eq_nil_of_length_eq_zero
      simp [h7]
    unfold RemoteUploadStrategy.chunkArray
    rw [h7, chunkAux_cons 6 3 files h1, chunkAux_cons 5 3 _ h2, chunkAux_cons 4 3 _ h3, h4]
    simp [RemoteUploadStrategy.chunkAux, List.length_take, List.length_drop, h7]
  · have hflat : (RemoteUploadStrategy.chunkArray files 3).flatten = files :=
      chunkArray_flatten 3 (by decide) files
    simp only [RemoteUploadStrategy.uploadFiles]
    rw [foldl_append_map, hflat, List.nil_append]

/-- Seven concrete candidate files for the C6 witness. -/
def c6Files : List BrowserFile :=
  [{ name := "a1", size := 1, type := "text/plain", lastModified := 0 },
   { name := "a2", size := 1, type := "text/plain", lastModified := 0 },
   { name := "a3", size := 1, type := "text/plain", lastModified := 0 },
   { name := "a4", size := 1, type := "text/plain", lastModified := 0 },
   { name := "a5", size := 1, type := "text/plain", lastModified := 0 },
   { name := "a6", size := 1, type := "text/plain", lastModified := 0 },
   { name := "a7", size := 1, type := "text/plain", lastModified := 0 }]

/-- A storage oracle that always succeeds, for the C6 witness. -/
def c6Upload : BrowserFile → Except String UploadResult :=
  fun _ => Except.ok { success := true }

theorem C6_uploadFiles_windows_witness :
    (RemoteUploadStrategy.chunkArray c6Files 3).map List.length = [3, 3, 1] :=
  (C6_uploadFiles_windows {} c6Upload c6Files rfl).1

/-- C7: the state machine's `uploadFiles` first rewrites every batch file
in the state to status `uploading`; when the strategy resolves with one
result per file, each batch file's status becomes `completed` exactly when
its positional result reports success and `failed` otherwise; and the
global `isUploading` flag is false after the call both when the strategy
resolves and when it throws (the `finally` block). -/
theorem C7_uploadFiles_statuses (st : RemoteFileBrowserState) (batch : List RemoteFile)
    (results : List UploadResult) (err : String)
    (hnd : (batch.map RemoteFile.id).Nodup)
    (_hlen : results.length = batch.length) :
    (∀ g ∈ (RemoteFileBrowserField.uploadFilesMark st batch).files,
        g.id ∈ batch.map RemoteFile.id → g.status = FileStatus.uploading)
    ∧ (∀ i, ∀ (hi : i < batch.length) (hri : i < results.length),
        ∀ g ∈ (RemoteFileBrowserField.uploadFiles st batch (Except.ok results)).1.files,
          g.id = (batch.get ⟨i, hi⟩).id →
            g.status = (if (results.get ⟨i, hri⟩).success then FileStatus.completed
              else FileStatus.failed))
    ∧ (RemoteFileBrowserField.uploadFiles st batch (Except.ok results)).1.isUploading = false
    ∧ (RemoteFileBrowserField.uploadFiles st batch (Except.error err)).1.isUploading = false := by
  refine ⟨?_, ?_, rfl, rfl⟩
  · intro g hg hid
    have hg2 : g ∈ List.map
        (fun file => (((batch.map (fun b => { b with status := FileStatus.uploading })).reverse.find?
          (fun u => u.id == file.id)).getD file)) st.files := hg
    rcases List.mem_map.mp hg2 with ⟨f, hf, hgeq⟩
    cases hfind : (batch.map (fun b => { b with status := FileStatus.uploading })).reverse.find?
        (fun u => u.id == f.id) with
    | none =>
      exfalso
      rw [hfind] at hgeq
      simp only [Option.getD_none] at hgeq
      rcases List.mem_map.mp hid with ⟨b, hb, hbid⟩
      have hmem2 : ({ b with status := FileStatus.uploading } : RemoteFile)
          ∈ (batch.map (fun b => { b with status := FileStatus.uploading })).reverse :=
        List.mem_reverse.mpr (List.mem_map.mpr ⟨b, hb, rfl⟩)
      have hnone := List.find?_eq_none.mp hfind _ hmem2
      apply hnone
      rw [beq_iff_eq]
      show b.id = f.id
      rw [hbid, hgeq]
    | some u =>
      rw [hfind] at hgeq
      simp only [Option.getD_some] at hgeq
      rcases List.mem_map.mp (List.mem_reverse.mp (List.mem_of_find?_eq_some hfind))
        with ⟨b, hb, hbeq⟩
      rw [← hgeq, ← hbeq]
  · intro i hi hri g hg hid
    have hg2 : g ∈ RemoteFileBrowserField.updateFiles
        (RemoteFileBrowserField.uploadFilesMark st batch).files
        (List.zipWith (fun file result =>
          { file with
            status := if result.success then FileStatus.completed else FileStatus.failed,
            url := result.url }) batch results) := hg
    set updFinal : List RemoteFile := List.zipWith (fun file result =>
      { file with
        status := if result.success then FileStatus.completed else FileStatus.failed,
        url := result.url }) batch results with hupd
    have hlen2 : i < updFinal.length := by
      rw [hupd, List.length_zipWith]
      simp only [lt_inf_iff]
      exact ⟨hi, hri⟩
    simp only [RemoteFileBrowserField.updateFiles] at hg2
    rcases List.mem_map.mp hg2 with ⟨f0, hf0, hgeq⟩
    have hidi : updFinal[i].id = (batch.get ⟨i, hi⟩).id := by
      simp only [hupd, List.getElem_zipWith, List.get_eq_getElem]
    cases hfind : updFinal.reverse.find? (fun u => u.id == f0.id) with
    | none =>
      exfalso
      rw [hfind] at hgeq
      simp only [Option.getD_none] at hgeq
      have hmemi : updFinal[i] ∈ updFinal.reverse :=
        List.mem_reverse.mpr (List.getElem_mem hlen2)
      have hnone := List.find?_eq_none.mp hfind _ hmemi
      apply hnone
      rw [beq_iff_eq, hidi, hgeq]
      exact hid.symm
    | some u =>
      rw [hfind] at hgeq
      simp only [Option.getD_some] at hgeq
      have hu : u ∈ updFinal := List.mem_reverse.mp (List.mem_of_find?_eq_some hfind)
      rcases List.mem_iff_getElem.mp hu with ⟨j, hj, huj⟩
      have hj2 : j < batch.length := by
        rw [hupd, List.length_zipWith] at hj
        exact lt_of_lt_of_le hj inf_le_left
      have hj3 : j < results.length := by
        rw [hupd, List.length_zipWith] at hj
        exact lt_of_lt_of_le hj inf_le_right
      have hfull : updFinal[j] = { batch[j] with
          status := if results[j].success then FileStatus.completed else FileStatus.failed,
          url := results[j].url } := by
        simp only [hupd, List.getElem_zipWith]
      have hid_j : batch[j].id = (batch.get ⟨i, hi⟩).id := by
        have h1 : u.id = batch[j].id := by
          rw [← huj, hfull]
        rw [← h1, hgeq]
        exact hid
      have hji : j = i := by
        have hjm : j < (batch.map RemoteFile.id).length := by
          simpa using hj2
        have him : i < (batch.map RemoteFile.id).length := by
          simpa using hi
        have h1 : (batch.map RemoteFile.id)[j] = (batch.map RemoteFile.id)[i] := by
          simp only [List.getElem_map]
          rw [List.get_eq_getElem] at hid_j
          exact hid_j
        exact (List.Nodup.getElem_inj_iff hnd).mp h1
      subst hji
      rw [← hgeq, ← huj, hfull]
      simp only [List.get_eq_getElem]

/-- Concrete batch for the C7 witness. -/
def c7Batch : List RemoteFile :=
  [{ id := "a", name := "a.txt", size := 1, type := "text/plain",
     lastModified := 0, status := FileStatus.pending },
   { id := "b", name := "b.txt", size := 2, type := "text/plain",
     lastModified := 0, status := FileStatus.pending }]

/-- Concrete state holding the C7 batch. -/
def c7State : RemoteFileBrowserState :=
  { files := c7Batch, isDragActive := false, isUploading := false, selectedFiles := [] }

theorem C7_uploadFiles_statuses_witness :
    (RemoteFileBrowserField.uploadFiles c7State c7Batch
      (Except.ok [{ success := true }, { success := false }])).1.isUploading = false :=
  (C7_uploadFiles_statuses c7State c7Batch [{ success := true }, { success := false }] "boom"
    (by decide) (by decide)).2.2.1

/-- Marks the entries of the ledger whose key is in `ids` as expired; the
pointwise description of the sweep's write-back loop. -/
def markTicketIf (ids : List String) (p : String × RemoteFileUploadTicket) :
    String × RemoteFileUploadTicket :=
  if p.1 ∈ ids then (p.1, { p.2 with status := TicketStatus.expired }) else p

/-- With unique keys, the first entry found for a present key is that
entry. -/
theorem find?_key_of_nodup (tickets : RemoteFileUploadTicketViewModel.TicketLedger)
    (ticketId : String) (ticket : RemoteFileUploadTicket)
    (hnd : (tickets.map Prod.fst).Nodup) (hmem : (ticketId, ticket) ∈ tickets) :
    tickets.find? (fun p => p.1 == ticketId) = some (ticketId, ticket) := by
  induction tickets with
  | nil => exact absurd hmem (List.not_mem_nil _)
  | cons p rest ih =>
    rcases List.mem_cons.mp hmem with heq | hmem2
    · rw [← heq]
      apply List.find?_cons_of_pos
      simp
    · have hnd2 : (p.1 :: rest.map Prod.fst).Nodup := by
        simpa using hnd
      have hne : ¬(p.1 == ticketId) = true := by
        rw [beq_iff_eq]
        intro he
        have h1 : ticketId ∈ rest.map Prod.fst := List.mem_map.mpr ⟨_, hmem2, rfl⟩
        have h2 : p.1 ∉ rest.map Prod.fst := (List.nodup_cons.mp hnd2).1
        rw [he] at h2
        exact h2 h1
      have hne2 : (p.1 == ticketId) = false := by
        simpa using hne
      simp only [List.find?_cons, hne2]
      exact ih ((List.nodup_cons.mp hnd2).2) hmem2

/-- One get/set pass of the sweep equals marking the (unique) entry at
that key, pointwise over the ledger. -/
theorem cleanup_step_eq (acc : RemoteFileUploadTicketViewModel.TicketLedger)
    (ticketId : String) (hnd : (acc.map Prod.fst).Nodup) :
    (match RemoteFileUploadTicketViewModel.mapGet acc ticketId with
     | some ticket =>
       RemoteFileUploadTicketViewModel.mapSet acc ticketId
         { ticket with status := TicketStatus.expired }
     | none => acc)
    = acc.map (markTicketIf [ticketId]) := by
  cases hget : RemoteFileUploadTicketViewModel.mapGet acc ticketId with
  | none =>
    have hfind : acc.find? (fun p => p.1 == ticketId) = none := by
      have h := hget
      simp only [RemoteFileUploadTicketViewModel.mapGet] at h
      exact Option.map_eq_none.mp h
    have hnokey : ∀ p ∈ acc, ¬(p.1 = ticketId) := by
      intro p hp he
      have := List.find?_eq_none.mp hfind p hp
      exact this (by simp [he])
    have hmapid : acc.map (markTicketIf [ticketId]) = acc := by
      have hcong : ∀ p ∈ acc, markTicketIf [ticketId] p = id p := by
        intro p hp
        simp [markTicketIf, hnokey p hp]
      rw [List.map_congr_left hcong, List.map_id]
    simp only [hget, hmapid]
  | some ticket =>
    simp only [hget]
    have h := hget
    simp only [RemoteFileUploadTicketViewModel.mapGet] at h
    rcases Option.map_eq_some.mp h with ⟨pr, hfind, hsnd⟩
    have hprmem : pr ∈ acc := List.mem_of_find?_eq_some hfind
    have hprkey : pr.1 = ticketId := by
      have := List.find?_some hfind
      simpa [beq_iff_eq] using this
    have hany : acc.any (fun p => p.1 == ticketId) = true := by
      apply List.any_eq_true.mpr
      exact ⟨pr, hprmem, by simp [hprkey]⟩
    simp only [RemoteFileUploadTicketViewModel.mapSet, hany, if_pos]
    apply List.map_congr_left
    intro p hp
    by_cases hk : p.1 = ticketId
    · have hpeq : p = pr := by
        apply List.inj_on_of_nodup_map hnd hp hprmem
        rw [hk, hprkey]
      simp [markTicketIf, hk, hpeq, hsnd]
    · simp [markTicketIf, hk]

/-- The whole write-back loop of the sweep equals marking every entry
whose key is in the collected id list. -/
theorem cleanup_foldl_eq (ids : List String) :
    ∀ (acc : RemoteFileUploadTicketViewModel.TicketLedger), (acc.map Prod.fst).Nodup →
      ids.foldl
        (fun acc ticketId =>
          match RemoteFileUploadTicketViewModel.mapGet acc ticketId with
          | some ticket =>
            RemoteFileUploadTicketViewModel.mapSet acc ticketId
              { ticket with status := TicketStatus.expired }
          | none => acc)
        acc
      = acc.map (markTicketIf ids) := by
  induction ids with
  | nil =>
    intro acc _
    have hcong : ∀ p ∈ acc, markTicketIf [] p = id p := by
      intro p hp
      simp [markTicketIf]
    rw [List.foldl_nil, List.map_congr_left hcong, List.map_id]
  | cons headId rest ih =>
    intro acc hnd
    rw [List.foldl_cons, cleanup_step_eq acc headId hnd]
    have hkeys : ((acc.map (markTicketIf [headId])).map Prod.fst) = acc.map Prod.fst := by
      rw [List.map_map]
      apply List.map_congr_left
      intro p hp
      simp only [Function.comp_apply, markTicketIf]
      split <;> rfl
    rw [ih _ (by rw [hkeys]; exact hnd), List.map_map]
    apply List.map_congr_left
    intro p hp
    simp only [Function.comp_apply, markTicketIf]
    by_cases h1 : p.1 = headId
    · by_cases h2 : p.1 ∈ rest <;> simp [h1, h2]
    · by_cases h2 : p.1 ∈ rest <;> simp [h1, h2]

/-- C9: for a ledger entry whose expiry is strictly before the current
time, `cleanupExpiredTickets` rewrites that entry's stored status to
`expired`, and the swept ticket is absent from `getActiveTickets` (its
stored status is no longer `active`). Keys of the ledger Map are unique
by construction. -/
theorem C9_cleanupExpiredTickets (now : Int)
    (tickets : RemoteFileUploadTicketViewModel.TicketLedger)
    (ticketId : String) (ticket : RemoteFileUploadTicket)
    (hnd : (tickets.map Prod.fst).Nodup)
    (hmem : (ticketId, ticket) ∈ tickets)
    (hexp : ticket.expiryDate < now) :
    RemoteFileUploadTicketViewModel.mapGet
        (RemoteFileUploadTicketViewModel.cleanupExpiredTickets now tickets) ticketId
      = some { ticket with status := TicketStatus.expired }
    ∧ { ticket with status := TicketStatus.expired }
        ∉ RemoteFileUploadTicketViewModel.getActiveTickets now
            (RemoteFileUploadTicketViewModel.cleanupExpiredTickets now tickets) := by
  set expIds : List String :=
    (tickets.filter (fun p => RemoteFileUploadTicketViewModel.isTicketExpired now p.2)).map
      Prod.fst with hids
  have hchar : RemoteFileUploadTicketViewModel.cleanupExpiredTickets now tickets
      = tickets.map (markTicketIf expIds) := by
    simp only [RemoteFileUploadTicketViewModel.cleanupExpiredTickets]
    exact cleanup_foldl_eq _ tickets hnd
  constructor
  · rw [hchar]
    simp only [RemoteFileUploadTicketViewModel.mapGet]
    rw [List.find?_map]
    have hpred : ((fun p : String × RemoteFileUploadTicket => p.1 == ticketId)
        ∘ markTicketIf expIds) = (fun p : String × RemoteFileUploadTicket => p.1 == ticketId) := by
      funext p
      simp only [Function.comp_apply, markTicketIf]
      split <;> rfl
    rw [hpred, find?_key_of_nodup tickets ticketId ticket hnd hmem]
    have hin : ticketId ∈ expIds := by
      rw [hids]
      apply List.mem_map.mpr
      refine ⟨(ticketId, ticket), ?_, rfl⟩
      apply List.mem_filter.mpr
      refine ⟨hmem, ?_⟩
      simpa [RemoteFileUploadTicketViewModel.isTicketExpired] using hexp
    simp [markTicketIf, hin]
  · intro hmem2
    have h2 := (List.mem_filter.mp hmem2).2
    simp at h2

/-- A concrete expired ticket for the C9 witness. -/
def c9Ticket : RemoteFileUploadTicket :=
  { id := "t", fileName := "f.txt", fileSize := 1, uploadUrl := "u",
    expiryDate := 5, status := TicketStatus.active }

theorem C9_cleanupExpiredTickets_witness :
    RemoteFileUploadTicketViewModel.mapGet
        (RemoteFileUploadTicketViewModel.cleanupExpiredTickets 10 [("t", c9Ticket)]) "t"
      = some { c9Ticket with status := TicketStatus.expired } :=
  (C9_cleanupExpiredTickets 10 [("t", c9Ticket)] "t" c9Ticket (by decide) (by decide)
    (by decide)).1

/-- The ascending size comparator orders by size: the comparator value is
at most zero exactly when the first size is at most the second. -/
theorem jsCompare_size_asc (a b : RemoteFile) :
    RemoteFileBrowserField.jsCompare ⟨SortField.size, SortDirection.asc⟩ a b ≤ 0
      ↔ a.size ≤ b.size := by
  simp only [RemoteFileBrowserField.jsCompare, RemoteFileBrowserField.sortValue,
    RemoteFileBrowserField.keyLtb]
  split_ifs with h1 h2 <;> simp_all
  omega

/-- The descending size comparator orders by reverse size. -/
theorem jsCompare_size_desc (a b : RemoteFile) :
    RemoteFileBrowserField.jsCompare ⟨SortField.size, SortDirection.desc⟩ a b ≤ 0
      ↔ b.size ≤ a.size := by
  simp only [RemoteFileBrowserField.jsCompare, RemoteFileBrowserField.sortValue,
    RemoteFileBrowserField.keyLtb]
  split_ifs with h1 h2 <;> simp_all

/-- Two permuted lists that are both pairwise ordered by an asymmetric
relation are equal: a sorted arrangement under a strict order is unique. -/
theorem eq_of_perm_of_pairwise_asymm {α : Type} (r : α → α → Prop)
    (hasymm : ∀ a b, r a b → r b a → False) :
    ∀ {l₁ l₂ : List α}, l₁.Perm l₂ → l₁.Pairwise r → l₂.Pairwise r → l₁ = l₂ := by
  intro l₁
  induction l₁ with
  | nil =>
    intro l₂ hp _ _
    exact hp.nil_eq
  | cons a t ih =>
    intro l₂ hp h1 h2
    cases l₂ with
    | nil => exact absurd hp.eq_nil (by simp)
    | cons b s =>
      by_cases hab : a = b
      · subst hab
        rw [ih hp.cons_inv (List.Pairwise.of_cons h1) (List.Pairwise.of_cons h2)]
      · exfalso
        have ha3 : a ∈ s := by
          rcases List.mem_cons.mp (hp.subset (List.mem_cons_self a t)) with h | h
          · exact absurd h hab
          · exact h
        have hb3 : b ∈ t := by
          rcases List.mem_cons.mp (hp.symm.subset (List.mem_cons_self b s)) with h | h
          · exact absurd h.symm hab
          · exact h
        exact hasymm a b (List.rel_of_pairwise_cons h1 hb3) (List.rel_of_pairwise_cons h2 ha3)

/-- C5: when all files have pairwise distinct sizes, sorting by size
descending produces exactly the reverse of sorting by size ascending. -/
theorem C5_sortFiles_desc_reverse_asc (st : RemoteFileBrowserState)
    (hd : st.files.Pairwise (fun a b => a.size ≠ b.size)) :
    (RemoteFileBrowserField.sortFiles st ⟨SortField.size, SortDirection.desc⟩).files
      = ((RemoteFileBrowserField.sortFiles st ⟨SortField.size, SortDirection.asc⟩).files).reverse := by
  simp only [RemoteFileBrowserField.sortFiles]
  have htransA : ∀ a b c : RemoteFile,
      decide (RemoteFileBrowserField.jsCompare ⟨SortField.size, SortDirection.asc⟩ a b ≤ 0) = true →
      decide (RemoteFileBrowserField.jsCompare ⟨SortField.size, SortDirection.asc⟩ b c ≤ 0) = true →
      decide (RemoteFileBrowserField.jsCompare ⟨SortField.size, SortDirection.asc⟩ a c ≤ 0) = true := by
    intro a b c h1 h2
    rw [decide_eq_true_eq, jsCompare_size_asc] at h1 h2 ⊢
    omega
  have htotalA : ∀ a b : RemoteFile,
      (decide (RemoteFileBrowserField.jsCompare ⟨SortField.size, SortDirection.asc⟩ a b ≤ 0)
        || decide (RemoteFileBrowserField.jsCompare ⟨SortField.size, SortDirection.asc⟩ b a ≤ 0))
        = true := by
    intro a b
    simp only [Bool.or_eq_true, decide_eq_true_eq, jsCompare_size_asc]
    omega
  have htransD : ∀ a b c : RemoteFile,
      decide (RemoteFileBrowserField.jsCompare ⟨SortField.size, SortDirection.desc⟩ a b ≤ 0) = true →
      decide (RemoteFileBrowserField.jsCompare ⟨SortField.size, SortDirection.desc⟩ b c ≤ 0) = true →
      decide (RemoteFileBrowserField.jsCompare ⟨SortField.size, SortDirection.desc⟩ a c ≤ 0) = true := by
    intro a b c h1 h2
    rw [decide_eq_true_eq, jsCompare_size_desc] at h1 h2 ⊢
    omega
  have htotalD : ∀ a b : RemoteFile,
      (decide (RemoteFileBrowserField.jsCompare ⟨SortField.size, SortDirection.desc⟩ a b ≤ 0)
        || decide (RemoteFileBrowserField.jsCompare ⟨SortField.size, SortDirection.desc⟩ b a ≤ 0))
        = true := by
    intro a b
    simp only [Bool.or_eq_true, decide_eq_true_eq, jsCompare_size_desc]
    omega
  have hpermA := List.mergeSort_perm st.files
    (fun a b => decide (RemoteFileBrowserField.jsCompare ⟨SortField.size, SortDirection.asc⟩ a b ≤ 0))
  have hpermD := List.mergeSort_perm st.files
    (fun a b => decide (RemoteFileBrowserField.jsCompare ⟨SortField.size, SortDirection.desc⟩ a b ≤ 0))
  have hsortA := List.sorted_mergeSort htransA htotalA st.files
  have hsortD := List.sorted_mergeSort htransD htotalD st.files
  have hsortA2 : (st.files.mergeSort
      (fun a b => decide (RemoteFileBrowserField.jsCompare ⟨SortField.size, SortDirection.asc⟩ a b ≤ 0))).Pairwise
        (fun a b : RemoteFile => a.size ≤ b.size) := by
    refine hsortA.imp ?_
    intro a b h
    rw [decide_eq_true_eq, jsCompare_size_asc] at h
    exact h
  have hsortD2 : (st.files.mergeSort
      (fun a b => decide (RemoteFileBrowserField.jsCompare ⟨SortField.size, SortDirection.desc⟩ a b ≤ 0))).Pairwise
        (fun a b : RemoteFile => b.size ≤ a.size) := by
    refine hsortD.imp ?_
    intro a b h
    rw [decide_eq_true_eq, jsCompare_size_desc] at h
    exact h
  have hsymm : ∀ {x y : RemoteFile}, x.size ≠ y.size → y.size ≠ x.size := fun h => h.symm
  have hdA := (hpermA.pairwise_iff hsymm).mpr hd
  have hdD := (hpermD.pairwise_iff hsymm).mpr hd
  have hstrictA : (st.files.mergeSort
      (fun a b => decide (RemoteFileBrowserField.jsCompare ⟨SortField.size, SortDirection.asc⟩ a b ≤ 0))).Pairwise
        (fun a b : RemoteFile => a.size < b.size) := by
    refine (hsortA2.and hdA).imp ?_
    intro a b h
    exact lt_of_le_of_ne h.1 h.2
  have hstrictD : (st.files.mergeSort
      (fun a b => decide (RemoteFileBrowserField.jsCompare ⟨SortField.size, SortDirection.desc⟩ a b ≤ 0))).Pairwise
        (fun a b : RemoteFile => b.size < a.size) := by
    refine (hsortD2.and hdD).imp ?_
    intro a b h
    exact lt_of_le_of_ne h.1 h.2.symm
  have hrevA : ((st.files.mergeSort
      (fun a b => decide (RemoteFileBrowserField.jsCompare ⟨SortField.size, SortDirection.asc⟩ a b ≤ 0))).reverse).Pairwise
        (fun a b : RemoteFile => b.size < a.size) :=
    List.pairwise_reverse.mpr hstrictA
  have hperm2 : (st.files.mergeSort
      (fun a b => decide (RemoteFileBrowserField.jsCompare ⟨SortField.size, SortDirection.desc⟩ a b ≤ 0))).Perm
      ((st.files.mergeSort
        (fun a b => decide (RemoteFileBrowserField.jsCompare ⟨SortField.size, SortDirection.asc⟩ a b ≤ 0))).reverse) :=
    hpermD.trans (hpermA.symm.trans (List.reverse_perm _).symm)
  exact eq_of_perm_of_pairwise_asymm (fun a b : RemoteFile => b.size < a.size)
    (fun a b h1 h2 => by omega) hperm2 hstrictD hrevA

/-- Concrete three-file state with distinct sizes for the C5 witness. -/
def c5State : RemoteFileBrowserState :=
  { files := [{ id := "a", name := "a", size := 2, type := "t", lastModified := 0,
                status := FileStatus.completed },
              { id := "b", name := "b", size := 1, type := "t", lastModified := 0,
                status := FileStatus.completed },
              { id := "c", name := "c", size := 3, type := "t", lastModified := 0,
                status := FileStatus.completed }],
    isDragActive := false, isUploading := false, selectedFiles := [] }

theorem C5_sortFiles_desc_reverse_asc_witness :
    (RemoteFileBrowserField.sortFiles c5State ⟨SortField.size, SortDirection.desc⟩).files
      = ((RemoteFileBrowserField.sortFiles c5State ⟨SortField.size, SortDirection.asc⟩).files).reverse :=
  C5_sortFiles_desc_reverse_asc c5State (by decide)
